import Mathlib

/-!
Verification development for the Hull-White European swaption Monte Carlo
pricer in `src/European.ipynb`.  The numerical code works over IEEE floats;
we embed it shallowly over the real numbers `ℝ`, keeping the source's
structure and names.  The yield curve produced by `scipy`'s `CubicSpline`
is modelled abstractly as a value function `y : ℝ → ℝ` together with its
first derivative `yd : ℝ → ℝ` (the notebook only ever calls
`yield_curve(t)` and `yield_curve.derivative(nu=1)(t)`).
-/

namespace European

/-- Python exception classes relevant to this development.  `valueError`
and `indexError` model the exceptions actually raised by the scipy/numpy
calls in the notebook; `invalidCurveError` and `invalidEnsembleSizeError`
model the dedicated error classes the specification names (no code in the
repository defines or raises them). -/
inductive PyError
  | valueError
  | indexError
  | invalidCurveError
  | invalidEnsembleSizeError
  deriving DecidableEq

/-- Result of fitting a cubic spline: the knot data.  The interpolation
mechanics themselves are external to the repository and are not needed by
any claim; only the input validation of the constructor is. -/
structure CurveData where
  durations : List ℝ
  yields : List ℝ

open Classical in
/-- Input validation of `scipy.interpolate.CubicSpline(durations, yields)`,
modelled from scipy's documented contract: the `x` array must hold at
least two values in strictly increasing order, otherwise the constructor
raises a `ValueError` and no spline is produced.  (This is library code,
not repository code; the repository's `create_yield_curve` performs no
validation of its own.) -/
noncomputable def CubicSpline (durations yields : List ℝ) :
    Except PyError CurveData :=
  if 2 ≤ durations.length ∧ durations.Chain' (· < ·) then
    .ok ⟨durations, yields⟩
  else
    .error .valueError

/-- Function `create_yield_curve` from the notebook: extract durations and yields
from the list of pairs and fit a cubic spline. -/
noncomputable def create_yield_curve (yield_curve : List (ℝ × ℝ)) :
    Except PyError CurveData :=
  CubicSpline (yield_curve.map Prod.fst) (yield_curve.map Prod.snd)

/-- The time-dependent Hull-White drift rebuilt inside `simulate_path`:
`theta = lambda t: yield_curve.derivative(nu=1)(t) + (a*yield_curve(t))
+ ((sigma**2)/(2*a))*(1-np.exp(-2*a*t))`. -/
noncomputable def theta_fn (a sigma : ℝ) (y yd : ℝ → ℝ) (t : ℝ) : ℝ :=
  yd t + a * y t + sigma ^ 2 / (2 * a) * (1 - Real.exp (-2 * a * t))

/-- Function `simulate_path` from `get_short_rates`: explicit Euler discretisation
`r[0] = r0`; `dr[t] = (theta(t*dt) - a*r[t-1])*dt + sigma*sqrt(dt)*Z[t]`;
`r[t] = r[t-1] + dr[t]`.  The `theta_arg` parameter mirrors the `theta`
entry of the parameter tuple, which the Python closure unpacks and then
immediately shadows with the locally rebuilt drift `theta_fn`. -/
noncomputable def simulate_path (Z : ℕ → ℝ) (dt r0 a sigma : ℝ)
    (theta_arg : ℝ → ℝ) (y yd : ℝ → ℝ) : ℕ → ℝ
  | 0 => r0
  | t + 1 =>
    let prev := simulate_path Z dt r0 a sigma theta_arg y yd t
    prev + ((theta_fn a sigma y yd ((t + 1 : ℕ) * dt) - a * prev) * dt
      + sigma * Real.sqrt dt * Z (t + 1))

/-- The stacked shock matrix `random_z = np.vstack((random_part_1,
-random_part_1))` of `get_short_rates`, where `D` stands for the
`simulations/2 × steps` block of independent standard-normal draws
`random_part_1`.  Row `i` of the stack is row `i` of the draws when
`i < simulations/2` and the negation of row `i - simulations/2`
otherwise. -/
noncomputable def random_z (simulations : ℕ) (D : ℕ → ℕ → ℝ)
    (i j : ℕ) : ℝ :=
  if i < simulations / 2 then D i j else -D (i - simulations / 2) j

/-- Function `get_short_rates` from the notebook.  The stacked shock matrix has
`2*(simulations/2)` rows (integer division); building
`simulation_params` reads row `i` for every `i < simulations`, which is
an out-of-bounds numpy access — an `IndexError` — exactly when
`simulations` is odd.  Otherwise every path is `simulate_path` on its
row of the stack. -/
noncomputable def get_short_rates (simulations : ℕ) (dt r0 a sigma : ℝ)
    (theta_arg : ℝ → ℝ) (y yd : ℝ → ℝ) (D : ℕ → ℕ → ℝ) :
    Except PyError (ℕ → ℕ → ℝ) :=
  if simulations ≤ 2 * (simulations / 2) then
    .ok (fun i => simulate_path (random_z simulations D i) dt r0 a sigma
      theta_arg y yd)
  else
    .error .indexError

/-- Number of elements of `np.arange(start, stop, step)` for a positive
`step`, in exact real arithmetic: `⌈(stop - start) / step⌉`, clamped at
zero. -/
noncomputable def arangeLen (start stop step : ℝ) : ℕ :=
  (Int.ceil ((stop - start) / step)).toNat

/-- Model of `np.arange(start, stop, step)` in exact real arithmetic. -/
noncomputable def arange (start stop step : ℝ) : List ℝ :=
  (List.range (arangeLen start stop step)).map
    fun j : ℕ => start + (j : ℝ) * step

/-- Python's `int()` applied to a nonnegative real index: truncation,
i.e. the floor, clamped to `ℕ`. -/
noncomputable def pyInt (x : ℝ) : ℕ := (Int.floor x).toNat

/-- One row of `get_forward_rates`: for each tenor start
`t ∈ np.arange(0.0, T_m, tenor)`, the Riemann sum
`np.sum(short_rate_paths[sim, int(mpy*t) : int(mpy*(t+tenor))] * dt)`. -/
noncomputable def get_forward_rates (months_per_year : ℕ)
    (dt T_m tenor : ℝ) (r : ℕ → ℝ) : List ℝ :=
  (arange 0 T_m tenor).map fun t =>
    ∑ k ∈ Finset.Ico (pyInt ((months_per_year : ℝ) * t))
      (pyInt ((months_per_year : ℝ) * (t + tenor))), r k * dt

/-- Function `B(s, t, a) = 1/a * (1 - np.exp(a * (s - t)))` from the bond pricer
nested inside `sim_swap_eval`. -/
noncomputable def B (s t a : ℝ) : ℝ :=
  1 / a * (1 - Real.exp (a * (s - t)))

/-- Function `A(s, t, a, sigma, yield_curve)` from the bond pricer:
`(P_0_t/P_0_s) * exp(B*yc(s) - (sigma^2/(4a))*B^2*(1-exp(-2as)))` with
`P_0_x = exp(-yc(x)*x)`. -/
noncomputable def A (s t a sigma : ℝ) (y : ℝ → ℝ) : ℝ :=
  Real.exp (-y t * t) / Real.exp (-y s * s) *
    Real.exp (B s t a * y s
      - sigma ^ 2 / (4 * a) * B s t a ^ 2 * (1 - Real.exp (-2 * a * s)))

/-- Zero-coupon bond price `P(s, t, r_s, a, sigma, yield_curve) =
A(s,t,a,sigma,yc) * np.exp(-B(s,t,a) * r_s)`. -/
noncomputable def P (s t r_s a sigma : ℝ) (y : ℝ → ℝ) : ℝ :=
  A s t a sigma y * Real.exp (-B s t a * r_s)

/-- Swap value `V` from `sim_swap_eval`: with `r_t` the simulated rate at
step `int(months_per_year * t)`, returns
`-N*(P(t,T_0,r_t) - P(t,T_m,r_t) - fixed_rate * Σ P(t,T_i,r_t)*tenor)`
where `T_i` ranges over `np.arange(T_0+tenor, T_m+tenor, tenor)`. -/
noncomputable def V (months_per_year : ℕ) (t T_0 T_m N fixed_rate tenor : ℝ)
    (rates : ℕ → ℝ) (a sigma : ℝ) (y : ℝ → ℝ) : ℝ :=
  let r_t := rates (pyInt ((months_per_year : ℝ) * t))
  let term1 := P t T_0 r_t a sigma y
  let term2 := P t T_m r_t a sigma y
  let term3 := ((arange (T_0 + tenor) (T_m + tenor) tenor).map
    fun T_i => P t T_i r_t a sigma y * tenor).sum;
  -N * (term1 - term2 - fixed_rate * term3)

/-- One row of `get_simulations_swap_values` (`sim_swap_eval`): the swap
value at every candidate exercise time `t ∈ np.arange(tenor, T_m, tenor)`. -/
noncomputable def sim_swap_eval (months_per_year : ℕ)
    (T_m tenor N fixed_rate : ℝ) (rates : ℕ → ℝ) (a sigma : ℝ)
    (y : ℝ → ℝ) : List ℝ :=
  (arange tenor T_m tenor).map fun t =>
    V months_per_year t t T_m N fixed_rate tenor rates a sigma y

/-- Function `price_european_MC(swap_values, T_n, forward_rates)`: each path with a
positive swap value contributes `swap_values[i] * exp(-disc_rate)` with
`disc_rate = np.sum(forward_rates[i, :int(T_n)+1])`, every other path
contributes `0`; the estimate is the sum divided by the number of paths. -/
noncomputable def price_european_MC (swap_values : List ℝ) (T_n : ℝ)
    (forward_rates : ℕ → ℕ → ℝ) : ℝ :=
  let positive_swaps := (List.range swap_values.length).map fun i =>
    if 0 < swap_values.getD i 0 then
      swap_values.getD i 0 *
        Real.exp (-∑ j ∈ Finset.range (pyInt T_n + 1), forward_rates i j)
    else 0
  positive_swaps.sum / swap_values.length

/-! ## Theorems -/

/-- C1: for every initial rate, parameters `a ≠ 0` and `sigma`, step count
`steps ≥ 1`, step width `dt`, yield curve and shock sequence, the
simulated short-rate path starts at `r0` and satisfies the explicit Euler
recursion `r[k] = r[k-1] + (θ(k·dt) - a·r[k-1])·dt + σ·√dt·Z[k]` with
`θ(t) = y'(t) + a·y(t) + (σ²/(2a))·(1 - exp(-2at))`, for `1 ≤ k ≤ steps-1`. -/
theorem simulate_path_euler (steps : ℕ) (dt r0 a sigma : ℝ)
    (theta_arg y yd : ℝ → ℝ) (Z : ℕ → ℝ) (ha : a ≠ 0) (hs : 1 ≤ steps) :
    simulate_path Z dt r0 a sigma theta_arg y yd 0 = r0 ∧
    ∀ k : ℕ, 1 ≤ k → k ≤ steps - 1 →
      simulate_path Z dt r0 a sigma theta_arg y yd k =
        simulate_path Z dt r0 a sigma theta_arg y yd (k - 1) +
          ((yd ((k : ℝ) * dt) + a * y ((k : ℝ) * dt)
              + sigma ^ 2 / (2 * a)
                * (1 - Real.exp (-2 * a * ((k : ℝ) * dt)))
            - a * simulate_path Z dt r0 a sigma theta_arg y yd (k - 1)) * dt
            + sigma * Real.sqrt dt * Z k) := by
  refine ⟨rfl, ?_⟩
  intro k hk _
  cases k with
  | zero => omega
  | succ m =>
    simp only [simulate_path, theta_fn, Nat.add_sub_cancel]

/-- Closed instance of `simulate_path_euler` at `steps = 2`, `dt = 1`,
`r0 = 0`, `a = 1`, `sigma = 1`, zero curve and unit shocks, read at
step `k = 1`. -/
theorem simulate_path_euler_witness :
    simulate_path (fun _ => 1) 1 0 1 1 (fun _ => 0) (fun _ => 0)
        (fun _ => 0) 0 = 0 ∧
    simulate_path (fun _ => 1) 1 0 1 1 (fun _ => 0) (fun _ => 0)
        (fun _ => 0) 1 =
      simulate_path (fun _ => 1) 1 0 1 1 (fun _ => 0) (fun _ => 0)
        (fun _ => 0) 0 +
        ((0 + 1 * 0 + 1 ^ 2 / (2 * 1) * (1 - Real.exp (-2 * 1 * (1 * 1)))
          - 1 * simulate_path (fun _ => 1) 1 0 1 1 (fun _ => 0) (fun _ => 0)
              (fun _ => 0) 0) * 1
          + 1 * Real.sqrt 1 * 1) := by
  have h := simulate_path_euler 2 1 0 1 1 (fun _ => 0) (fun _ => 0)
    (fun _ => 0) (fun _ => 1) (by norm_num) (by norm_num)
  refine ⟨h.1, ?_⟩
  have h2 := h.2 1 (by norm_num) (by norm_num)
  simpa using h2

/-- C5: for an even number of simulations, the stacked shock matrix is
antithetic: the shock vector of path `i + simulations/2` is the exact
negation of the shock vector of path `i`, for every `i` in the first
half. -/
theorem random_z_antithetic (simulations : ℕ) (D : ℕ → ℕ → ℝ)
    (heven : simulations % 2 = 0) (i j : ℕ)
    (hi : i < simulations / 2) :
    random_z simulations D (i + simulations / 2) j =
      -random_z simulations D i j := by
  unfold random_z
  rw [if_neg (by omega), if_pos hi, Nat.add_sub_cancel]

/-- Closed instance of `random_z_antithetic` with four simulations at
path `1`, column `5`. -/
theorem random_z_antithetic_witness :
    random_z 4 (fun i j => (i : ℝ) + j) (1 + 4 / 2) 5 =
      -random_z 4 (fun i j => (i : ℝ) + j) 1 5 :=
  random_z_antithetic 4 (fun i j => (i : ℝ) + j) (by norm_num) 1 5
    (by norm_num)

/-- C8 (amended): calling the simulator with an odd number of simulations
fails — the stacked shock matrix has `simulations - 1` rows, so building
the per-path parameter list reads a row out of bounds, a numpy
`IndexError` — and produces no path ensemble.  The repository defines no
`InvalidEnsembleSizeError`. -/
theorem get_short_rates_odd_fails (simulations : ℕ) (dt r0 a sigma : ℝ)
    (theta_arg y yd : ℝ → ℝ) (D : ℕ → ℕ → ℝ)
    (hodd : simulations % 2 = 1) :
    get_short_rates simulations dt r0 a sigma theta_arg y yd D =
      .error .indexError := by
  unfold get_short_rates
  rw [if_neg (by omega)]

/-- Closed instance of `get_short_rates_odd_fails` at three simulations. -/
theorem get_short_rates_odd_fails_witness :
    get_short_rates 3 1 0 1 1 (fun _ => 0) (fun _ => 0) (fun _ => 0)
        (fun _ _ => 0) = .error .indexError :=
  get_short_rates_odd_fails 3 1 0 1 1 (fun _ => 0) (fun _ => 0)
    (fun _ => 0) (fun _ _ => 0) (by norm_num)

/-- C8 counterexample: at three simulations the simulator does not
produce `InvalidEnsembleSizeError` (it fails with the generic
out-of-bounds `IndexError` instead). -/
theorem get_short_rates_odd_not_ensemble_error :
    get_short_rates 3 1 0 1 1 (fun _ => 0) (fun _ => 0) (fun _ => 0)
        (fun _ _ => 0) ≠ .error .invalidEnsembleSizeError := by
  unfold get_short_rates
  rw [if_neg (by omega)]
  intro h
  exact PyError.noConfusion (Except.error.inj h)

/-- Auxiliary for C10: `simulate_path` never reads its `theta_arg`
parameter (the Python closure shadows it with the locally rebuilt
drift). -/
theorem simulate_path_theta_arg_irrel (Z : ℕ → ℝ) (dt r0 a sigma : ℝ)
    (theta1 theta2 y yd : ℝ → ℝ) :
    ∀ k, simulate_path Z dt r0 a sigma theta1 y yd k =
      simulate_path Z dt r0 a sigma theta2 y yd k := by
  intro k
  induction k with
  | zero => rfl
  | succ m ih => simp only [simulate_path, ih]

/-- C10: the short-rate simulator's output does not depend on the
supplied `theta` argument — with every other input held equal, any two
theta arguments give identical path ensembles, because the drift is
rebuilt internally from the yield curve, `a` and `sigma`. -/
theorem get_short_rates_theta_arg_independent (simulations : ℕ)
    (dt r0 a sigma : ℝ) (theta1 theta2 y yd : ℝ → ℝ)
    (D : ℕ → ℕ → ℝ) :
    get_short_rates simulations dt r0 a sigma theta1 y yd D =
      get_short_rates simulations dt r0 a sigma theta2 y yd D := by
  unfold get_short_rates
  split
  · exact congrArg Except.ok (funext fun i => funext fun k =>
      simulate_path_theta_arg_irrel (random_z simulations D i) dt r0 a
        sigma theta1 theta2 y yd k)
  · rfl

/-- C2: for every valuation time `s`, maturity `t`, short rate `r_s`,
parameters `a ≠ 0` and `sigma`, and yield curve `y`, the bond pricer
returns `A(s,t)·exp(-B(s,t)·r_s)` with `B(s,t) = (1/a)(1 - e^(a(s-t)))`
and `A(s,t) = [P(0,t)/P(0,s)]·exp(B(s,t)·y(s)
- (σ²/(4a))·B(s,t)²·(1 - e^(-2as)))`, where `P(0,x) = e^(-y(x)·x)`. -/
theorem P_affine_formula (s t r_s a sigma : ℝ) (y : ℝ → ℝ)
    (ha : a ≠ 0) :
    P s t r_s a sigma y =
      Real.exp (-y t * t) / Real.exp (-y s * s) *
        Real.exp (1 / a * (1 - Real.exp (a * (s - t))) * y s
          - sigma ^ 2 / (4 * a)
            * (1 / a * (1 - Real.exp (a * (s - t)))) ^ 2
            * (1 - Real.exp (-2 * a * s))) *
      Real.exp (-(1 / a * (1 - Real.exp (a * (s - t)))) * r_s) := rfl

/-- Closed instance of `P_affine_formula` at `s = 0`, `t = 1`,
`r_s = 2`, `a = 1`, `sigma = 3` and the zero curve. -/
theorem P_affine_formula_witness :
    P 0 1 2 1 3 (fun _ => 0) =
      Real.exp (-0 * 1) / Real.exp (-0 * 0) *
        Real.exp (1 / 1 * (1 - Real.exp (1 * (0 - 1))) * 0
          - 3 ^ 2 / (4 * 1) * (1 / 1 * (1 - Real.exp (1 * (0 - 1)))) ^ 2
            * (1 - Real.exp (-2 * 1 * 0))) *
      Real.exp (-(1 / 1 * (1 - Real.exp (1 * (0 - 1)))) * 2) :=
  P_affine_formula 0 1 2 1 3 (fun _ => 0) (by norm_num)

/-- C9 (amended): yield-curve construction with fewer than two points or
non-strictly-increasing maturities fails — `scipy`'s `CubicSpline`
constructor rejects the knot array with a `ValueError` — and produces no
curve.  The repository defines no `InvalidCurveError`. -/
theorem create_yield_curve_invalid_fails (pts : List (ℝ × ℝ))
    (hbad : pts.length < 2 ∨ ¬ (pts.map Prod.fst).Chain' (· < ·)) :
    create_yield_curve pts = .error .valueError := by
  unfold create_yield_curve CubicSpline
  rw [if_neg]
  rw [List.length_map]
  rcases hbad with h | h
  · exact fun hc => absurd hc.1 (by omega)
  · exact fun hc => h hc.2

/-- Closed instance of `create_yield_curve_invalid_fails` at the empty
point list. -/
theorem create_yield_curve_invalid_fails_witness :
    create_yield_curve ([] : List (ℝ × ℝ)) = .error .valueError :=
  create_yield_curve_invalid_fails [] (Or.inl (by norm_num))

/-- C9 counterexample: at the empty point list, construction does not
produce `InvalidCurveError` (it fails with the interpolation library's
generic `ValueError` instead). -/
theorem create_yield_curve_not_invalid_curve_error :
    create_yield_curve ([] : List (ℝ × ℝ)) ≠
      .error .invalidCurveError := by
  unfold create_yield_curve CubicSpline
  rw [if_neg (by simp)]
  intro h
  exact PyError.noConfusion (Except.error.inj h)

/-- C4: with the single European exercise at the first tenor date `T_n`
(a sub-year tenor, `0 ≤ T_n < 1`, as in the notebook's semi-annual
configuration), the Monte Carlo estimator is the arithmetic mean over
paths of `max(swapValue[i], 0) · exp(-forwardRateExponents[i][0])`: the
discount exponent is exactly the one tenor period running from time `0`
to the exercise date. -/
theorem price_european_MC_mean_payoff (swap_values : List ℝ) (T_n : ℝ)
    (forward_rates : ℕ → ℕ → ℝ) (h0 : 0 ≤ T_n) (h1 : T_n < 1) :
    price_european_MC swap_values T_n forward_rates =
      ((List.range swap_values.length).map fun i =>
        max (swap_values.getD i 0) 0
          * Real.exp (-forward_rates i 0)).sum /
        swap_values.length := by
  unfold price_european_MC
  have hfloor : pyInt T_n = 0 := by
    unfold pyInt
    rw [Int.floor_eq_zero_iff.mpr ⟨h0, h1⟩]
    rfl
  rw [hfloor]
  simp only []
  congr 1
  refine congrArg List.sum (List.map_congr_left fun i _ => ?_)
  rw [Finset.sum_range_one]
  rcases lt_or_le 0 (swap_values.getD i 0) with h | h
  · rw [if_pos h, max_eq_left h.le]
  · rw [if_neg (not_lt.mpr h), max_eq_right h, zero_mul]

/-- Closed instance of `price_european_MC_mean_payoff` on the two-path
ensemble `[1, -1]` with exercise date `1/2` and zero forward-rate
exponents. -/
theorem price_european_MC_mean_payoff_witness :
    price_european_MC [1, -1] (1 / 2) (fun _ _ => 0) =
      ((List.range ([1, -1] : List ℝ).length).map fun i =>
        max (([1, -1] : List ℝ).getD i 0) 0 * Real.exp (-0)).sum /
        ([1, -1] : List ℝ).length :=
  price_european_MC_mean_payoff [1, -1] (1 / 2) (fun _ _ => 0)
    (by norm_num) (by norm_num)

/-- C6: for a positive tenor, the forward-rate aggregator produces one
exponent per tenor period `t = j·τ` below `T_m` (the `j`-th entry exists
exactly when `j·τ < T_m`), and the `j`-th exponent is the Riemann sum of
`r[k]·dt` over the half-open step range
`[⌊(j·τ)·stepsPerYear⌋, ⌊(j·τ+τ)·stepsPerYear⌋)`, boundaries truncated
by floor. -/
theorem get_forward_rates_riemann (months_per_year : ℕ)
    (dt T_m tenor : ℝ) (r : ℕ → ℝ) (htenor : 0 < tenor) :
    (∀ j : ℕ, ((j : ℝ) * tenor < T_m ↔
      j < (get_forward_rates months_per_year dt T_m tenor r).length)) ∧
    ∀ j : ℕ, (j : ℝ) * tenor < T_m →
      (get_forward_rates months_per_year dt T_m tenor r)[j]? =
        some (∑ k ∈ Finset.Ico
          (Int.floor ((months_per_year : ℝ) * ((j : ℝ) * tenor))).toNat
          (Int.floor ((months_per_year : ℝ)
            * ((j : ℝ) * tenor + tenor))).toNat, r k * dt) := by
  have hiff : ∀ j : ℕ,
      ((j : ℝ) * tenor < T_m ↔ j < arangeLen 0 T_m tenor) := by
    intro j
    unfold arangeLen
    rw [Int.lt_toNat, Int.lt_ceil, sub_zero]
    push_cast
    rw [lt_div_iff₀ htenor]
  have hlen : (get_forward_rates months_per_year dt T_m tenor r).length =
      arangeLen 0 T_m tenor := by
    unfold get_forward_rates arange
    rw [List.length_map, List.length_map, List.length_range]
  refine ⟨fun j => by rw [hlen]; exact hiff j, fun j hj => ?_⟩
  have hj' : j < arangeLen 0 T_m tenor := (hiff j).mp hj
  unfold get_forward_rates arange
  rw [List.getElem?_map, List.getElem?_map, List.getElem?_range hj']
  simp [pyInt]

/-- Closed instance of `get_forward_rates_riemann`: period count of the
aggregator with two steps per year, maturity `1` and tenor `1/2`. -/
theorem get_forward_rates_riemann_witness :
    (0 : ℝ) < 1 / 2 ∧
    (((0 : ℕ) : ℝ) * (1 / 2) < 1 ↔
      0 < (get_forward_rates 2 1 1 (1 / 2) (fun _ => 1)).length) :=
  ⟨by norm_num,
    (get_forward_rates_riemann 2 1 1 (1 / 2) (fun _ => 1)
      (by norm_num)).1 0⟩

/-- C3: at a candidate exercise time `t = k·τ` (with `1 ≤ k < m` and
maturity `T_m = m·τ`), the swap valuator returns
`V(t) = -N·[P(t,T_0) - P(t,T_m) - K·Σ P(t,T_i)·τ]` with `T_0 = t` and
the payment dates `T_i = t + (j+1)·τ` running from `T_0 + τ` up to and
including `T_m` (the last date, `t + (m-k)·τ`, equals `T_m`); every bond
price takes the simulated rate at step `int(months_per_year·t)`. -/
theorem V_exercise_formula (months_per_year : ℕ)
    (N fixed_rate tenor : ℝ) (rates : ℕ → ℝ) (a sigma : ℝ) (y : ℝ → ℝ)
    (m k : ℕ) (htenor : 0 < tenor) (hk : 1 ≤ k) (hkm : k < m) :
    (V months_per_year ((k : ℝ) * tenor) ((k : ℝ) * tenor)
        ((m : ℝ) * tenor) N fixed_rate tenor rates a sigma y =
      -N * (P ((k : ℝ) * tenor) ((k : ℝ) * tenor)
          (rates (pyInt ((months_per_year : ℝ) * ((k : ℝ) * tenor))))
          a sigma y
        - P ((k : ℝ) * tenor) ((m : ℝ) * tenor)
          (rates (pyInt ((months_per_year : ℝ) * ((k : ℝ) * tenor))))
          a sigma y
        - fixed_rate * ((List.range (m - k)).map fun j : ℕ =>
            P ((k : ℝ) * tenor)
              ((k : ℝ) * tenor + ((j : ℝ) + 1) * tenor)
              (rates (pyInt ((months_per_year : ℝ) * ((k : ℝ) * tenor))))
              a sigma y * tenor).sum)) ∧
    (k : ℝ) * tenor + ((m - k : ℕ) : ℝ) * tenor = (m : ℝ) * tenor := by
  have hlen : arangeLen ((k : ℝ) * tenor + tenor)
      ((m : ℝ) * tenor + tenor) tenor = m - k := by
    unfold arangeLen
    have h1 : ((m : ℝ) * tenor + tenor - ((k : ℝ) * tenor + tenor))
        / tenor = ((m - k : ℕ) : ℝ) := by
      rw [Nat.cast_sub hkm.le]
      field_simp
      ring
    rw [h1, Int.ceil_natCast, Int.toNat_natCast]
  constructor
  · unfold V
    simp only []
    have harr : arange ((k : ℝ) * tenor + tenor)
        ((m : ℝ) * tenor + tenor) tenor =
        (List.range (m - k)).map
          (fun j : ℕ => ((k : ℝ) * tenor + tenor) + (j : ℝ) * tenor) := by
      unfold arange
      rw [hlen]
    rw [harr, List.map_map]
    have hmap : (List.range (m - k)).map
        ((fun T_i => P ((k : ℝ) * tenor) T_i
          (rates (pyInt ((months_per_year : ℝ) * ((k : ℝ) * tenor))))
          a sigma y * tenor) ∘
          fun j : ℕ => ((k : ℝ) * tenor + tenor) + (j : ℝ) * tenor) =
        (List.range (m - k)).map fun j : ℕ =>
          P ((k : ℝ) * tenor)
            ((k : ℝ) * tenor + ((j : ℝ) + 1) * tenor)
            (rates (pyInt ((months_per_year : ℝ) * ((k : ℝ) * tenor))))
            a sigma y * tenor := by
      refine List.map_congr_left fun j _ => ?_
      simp only [Function.comp_apply]
      rw [show ((k : ℝ) * tenor + tenor) + (j : ℝ) * tenor =
        (k : ℝ) * tenor + ((j : ℝ) + 1) * tenor from by ring]
    rw [hmap]
  · rw [Nat.cast_sub hkm.le]
    ring

/-- Closed instance of `V_exercise_formula` at `m = 2`, `k = 1`,
unit tenor and notional, strike `0`, flat zero curve and zero rates. -/
theorem V_exercise_formula_witness :
    (V 1 (((1 : ℕ) : ℝ) * 1) (((1 : ℕ) : ℝ) * 1) (((2 : ℕ) : ℝ) * 1)
        1 0 1 (fun _ => 0) 1 0 (fun _ => 0) =
      -1 * (P (((1 : ℕ) : ℝ) * 1) (((1 : ℕ) : ℝ) * 1) 0 1 0 (fun _ => 0)
        - P (((1 : ℕ) : ℝ) * 1) (((2 : ℕ) : ℝ) * 1) 0 1 0 (fun _ => 0)
        - 0 * ((List.range 1).map fun j : ℕ =>
            P (((1 : ℕ) : ℝ) * 1)
              (((1 : ℕ) : ℝ) * 1 + ((j : ℝ) + 1) * 1) 0 1 0
              (fun _ => 0) * 1).sum)) ∧
    (((1 : ℕ) : ℝ) * 1 + ((1 : ℕ) : ℝ) * 1 = ((2 : ℕ) : ℝ) * 1) :=
  V_exercise_formula 1 1 0 1 (fun _ => 0) 1 0 (fun _ => 0) 2 1
    (by norm_num) (by norm_num) (by norm_num)

/-- Auxiliary for C7: the affine bond price is a product of exponentials
and is therefore strictly positive, for any inputs. -/
theorem P_pos (s t r_s a sigma : ℝ) (y : ℝ → ℝ) :
    0 < P s t r_s a sigma y := by
  unfold P A
  positivity

/-- C7 counterexample: on the flat zero curve with zero rates, unit
notional and tenor, valuation at `t = 1` of a swap maturing at `T_m = 2`,
raising the fixed rate from `0` to `1` does not decrease the swap value
(the value rises from `0` to `1`), contradicting the claimed strict
decrease in `K`. -/
theorem V_fixed_rate_not_decreasing :
    ¬ (V 1 1 1 2 1 1 1 (fun _ => 0) 1 0 (fun _ => 0) <
       V 1 1 1 2 1 0 1 (fun _ => 0) 1 0 (fun _ => 0)) := by
  have h1 : V 1 1 1 2 1 1 1 (fun _ => 0) 1 0 (fun _ => 0) = 1 := by
    norm_num [V, P, A, B, arange, arangeLen, pyInt, Real.exp_zero,
      List.range_succ, List.range_zero]
  have h0 : V 1 1 1 2 1 0 1 (fun _ => 0) 1 0 (fun _ => 0) = 0 := by
    norm_num [V, P, A, B, arange, arangeLen, pyInt, Real.exp_zero,
      List.range_succ, List.range_zero]
  rw [h1, h0]
  norm_num

/-- C7 (amended): holding the notional `N > 0`, the tenor `τ > 0`, a
non-degenerate payment schedule (`T_0 < T_m`) and every other input
fixed, increasing the fixed rate `K` strictly increases the receiver
swap's value `V` (the fixed leg `+N·K·Σ P·τ` is received, and every bond
price is positive). -/
theorem V_strictMono_fixed_rate (months_per_year : ℕ)
    (t T_0 T_m N tenor K1 K2 : ℝ) (rates : ℕ → ℝ) (a sigma : ℝ)
    (y : ℝ → ℝ) (hN : 0 < N) (htenor : 0 < tenor) (hT : T_0 < T_m)
    (hK : K1 < K2) :
    V months_per_year t T_0 T_m N K1 tenor rates a sigma y <
      V months_per_year t T_0 T_m N K2 tenor rates a sigma y := by
  unfold V
  simp only []
  set S := ((arange (T_0 + tenor) (T_m + tenor) tenor).map
    fun T_i => P t T_i
      (rates (pyInt ((months_per_year : ℝ) * t))) a sigma y * tenor).sum
    with hS
  have hSpos : 0 < S := by
    rw [hS]
    apply List.sum_pos
    · intro x hx
      obtain ⟨T_i, _, rfl⟩ := List.mem_map.mp hx
      exact mul_pos (P_pos _ _ _ _ _ _) htenor
    · have hlenpos : 0 <
          (arange (T_0 + tenor) (T_m + tenor) tenor).length := by
        unfold arange arangeLen
        rw [List.length_map, List.length_range, Int.lt_toNat]
        have hx : (0 : ℝ) < (T_m + tenor - (T_0 + tenor)) / tenor :=
          div_pos (by linarith) htenor
        exact_mod_cast Int.ceil_pos.mpr hx
      intro hnil
      rw [List.map_eq_nil_iff.mp hnil] at hlenpos
      simp at hlenpos
  nlinarith [mul_pos hN (mul_pos (sub_pos.mpr hK) hSpos)]

/-- Closed instance of `V_strictMono_fixed_rate`: same configuration as
the counterexample, strikes `0 < 1`. -/
theorem V_strictMono_fixed_rate_witness :
    V 1 1 1 2 1 0 1 (fun _ => 0) 1 0 (fun _ => 0) <
      V 1 1 1 2 1 1 1 (fun _ => 0) 1 0 (fun _ => 0) :=
  V_strictMono_fixed_rate 1 1 1 2 1 1 0 1 (fun _ => 0) 1 0 (fun _ => 0)
    (by norm_num) (by norm_num) (by norm_num) (by norm_num)

end European
